import Mathlib

/-
Shallow embedding of the kage Shadowsocks 2022 client (Go) for checking its
natural-language specification. Bytes are modelled as `Nat` (values < 256 in
every reachable state); byte slices as `List Nat`; fallible Go functions as
`Except`/`Option`; the Go AEAD interface (`crypto/cipher.AEAD`) as an abstract
structure carrying its documented contract.
-/

namespace Kage

/-- Big-endian interpretation of a byte list (binary.BigEndian.UintNN). -/
def beToNat (l : List Nat) : Nat := l.foldl (fun a b => a * 256 + b) 0

/-- Two-byte big-endian encoding of a 16-bit value
(binary.BigEndian.PutUint16 / the shift-and-truncate idiom in Go). -/
def be16 (n : Nat) : List Nat := [n / 256 % 256, n % 256]

/-- Little-endian byte encoding of `n` at width `k` (low byte first,
truncating above `256 ^ k`). -/
def natToLE : Nat → Nat → List Nat
  | 0, _ => []
  | k + 1, n => (n % 256) :: natToLE k (n / 256)

/-- Result-or-error test on `Except` (mirrors Go's `err == nil`). -/
def isOk {ε α : Type} : Except ε α → Bool
  | .ok _ => true
  | .error _ => false

namespace Counter

/-- Counter.Count from shadowsocks/cipher.go: walk the 12-byte buffer from
byte 0; a 255 byte is zeroed and the carry moves to the next byte, any other
byte is incremented and the walk stops (little-endian add-one with wrap). -/
def Count : List Nat → List Nat
  | [] => []
  | b :: rest => if b = 255 then 0 :: Count rest else (b + 1) :: rest

end Counter

/-- Cipher methods supported by NewCipher (config.CipherMethod2022blake3...). -/
inductive CipherMethod where
  | aes128gcm
  | aes256gcm
  | chacha20poly1305
deriving DecidableEq

/-- Abstract model of Go's crypto/cipher.AEAD as instantiated by the cipher
suite, together with the contract documented for that interface: sealing adds
exactly `overhead` bytes, and Open inverts Seal under the same nonce. -/
structure AEAD where
  overhead : Nat
  Seal : List Nat → List Nat → List Nat
  Open : List Nat → List Nat → Option (List Nat)
  seal_length : ∀ n p, (Seal n p).length = p.length + overhead
  open_seal : ∀ n p, Open n (Seal n p) = some p

/-- The AEAD instantiation map: BLAKE3 key derivation from (key, salt)
followed by AES-GCM / ChaCha20-Poly1305 construction. It is deterministic in
(key, salt, method), which is all the theorems below use. -/
def MkAEAD : Type := List Nat → List Nat → CipherMethod → AEAD

/-- Errors of the cipher constructors (cipher.go). -/
inductive CipherErr where
  | keySize
  | method
deriving DecidableEq

/-- The Cipher context of cipher.go: AEAD, 12-byte nonce counter, and the
construction parameters retained for ReNew. -/
structure Cipher where
  aead : AEAD
  counter : List Nat
  key : List Nat
  salt : List Nat
  method : CipherMethod

namespace Cipher

/-- Cipher.Overhead. -/
def Overhead (c : Cipher) : Nat := c.aead.overhead

/-- Counter.Nonce: a copy of the current counter buffer. -/
def Nonce (c : Cipher) : List Nat := c.counter

/-- Cipher.Seal: seal under the current nonce, then increment the counter.
Returns the ciphertext and the updated context. -/
def Seal (c : Cipher) (p : List Nat) : List Nat × Cipher :=
  (c.aead.Seal c.counter p, { c with counter := Counter.Count c.counter })

/-- Cipher.Open: open under the current nonce; the counter advances only on
success, and on failure the context is returned unchanged. -/
def Open (c : Cipher) (ct : List Nat) : Option (List Nat) × Cipher :=
  match c.aead.Open c.counter ct with
  | none => (none, c)
  | some p => (some p, { c with counter := Counter.Count c.counter })

/-- Cipher.SealWithNonce: seal under an explicit nonce; the counter still
advances afterwards (UDP path). -/
def SealWithNonce (c : Cipher) (nonce p : List Nat) : List Nat × Cipher :=
  (c.aead.Seal nonce p, { c with counter := Counter.Count c.counter })

/-- Cipher.OpenWithNonce: open under an explicit nonce; counter advances on
success only (UDP path). -/
def OpenWithNonce (c : Cipher) (nonce ct : List Nat) : Option (List Nat) × Cipher :=
  match c.aead.Open nonce ct with
  | none => (none, c)
  | some p => (some p, { c with counter := Counter.Count c.counter })

end Cipher

/-- NewAES128GCM: requires a 16-byte key, then derives the subkey and builds
the GCM AEAD (modelled by `mk`), with a zeroed counter. -/
def NewAES128GCM (mk : MkAEAD) (key salt : List Nat) : Except CipherErr Cipher :=
  if key.length ≠ 16 then .error .keySize
  else .ok ⟨mk key salt .aes128gcm, List.replicate 12 0, key, salt, .aes128gcm⟩

/-- NewAES256GCM: requires a 32-byte key. -/
def NewAES256GCM (mk : MkAEAD) (key salt : List Nat) : Except CipherErr Cipher :=
  if key.length ≠ 32 then .error .keySize
  else .ok ⟨mk key salt .aes256gcm, List.replicate 12 0, key, salt, .aes256gcm⟩

/-- NewChacha20Poly1305: requires a 32-byte key. -/
def NewChacha20Poly1305 (mk : MkAEAD) (key salt : List Nat) : Except CipherErr Cipher :=
  if key.length ≠ 32 then .error .keySize
  else .ok ⟨mk key salt .chacha20poly1305, List.replicate 12 0, key, salt, .chacha20poly1305⟩

/-- NewCipher: dispatch on the method. -/
def NewCipher (mk : MkAEAD) (key salt : List Nat) (method : CipherMethod) :
    Except CipherErr Cipher :=
  match method with
  | .aes128gcm => NewAES128GCM mk key salt
  | .aes256gcm => NewAES256GCM mk key salt
  | .chacha20poly1305 => NewChacha20Poly1305 mk key salt

/-- Cipher.ReNew: rebuild with the same key and method under a new salt. -/
def Cipher.ReNew (mk : MkAEAD) (c : Cipher) (salt : List Nat) : Except CipherErr Cipher :=
  NewCipher mk c.key salt c.method

/-- Required key length per method (the constructors' preconditions). -/
def requiredKeyLen : CipherMethod → Nat
  | .aes128gcm => 16
  | _ => 32

/-- A context after `k` successful seal/open operations: each one increments
the counter exactly once (see Cipher.Seal / Cipher.Open above). -/
def advance (k : Nat) (c : Cipher) : Cipher :=
  { c with counter := Counter.Count^[k] c.counter }

/-- A concrete AEAD instance used to witness the theorems: appends a tag
byte 7; Open accepts exactly the lists ending in 7 and strips it. -/
def tagAEAD : AEAD where
  overhead := 1
  Seal := fun _ p => p ++ [7]
  Open := fun _ ct => if ct.getLast? = some 7 then some ct.dropLast else none
  seal_length := by intro n p; simp
  open_seal := by intro n p; simp

/-- A concrete instantiation map for witnesses. -/
def mkTag : MkAEAD := fun _ _ _ => tagAEAD

/-! Stream framing (ShadowTCPConn.Write / ShadowTCPConn.Read, tcp.go). -/

/-- ShadowTCPConn.Write: seal the 2-byte big-endian length of `p`
(`byte(len >> 8), byte(len)`), then seal `p`; the two ciphertexts are
transmitted back to back. Returns the wire bytes and the advanced context. -/
def writeChunk (enc : Cipher) (p : List Nat) : List Nat × Cipher :=
  let lenBytes := [p.length / 256 % 256, p.length % 256]
  let s1 := Cipher.Seal enc lenBytes
  let s2 := Cipher.Seal s1.2 p
  (s1.1 ++ s2.1, s2.2)

/-- ShadowTCPConn.Read, framing part: read and open the (2 + overhead)-byte
length chunk, decode `payloadSize := lenChunk[0]<<8 | lenChunk[1]`, then read
and open the (payloadSize + overhead)-byte body. `ov` is the overhead used to
size the reads (the source uses the encrypt context's overhead); `s` is the
incoming stream; the unread remainder of the stream is returned. `none`
models a short read or a failed open (both abort the Read). -/
def readChunk (ov : Nat) (dec : Cipher) (s : List Nat) :
    Option (List Nat × List Nat × Cipher) :=
  if s.length < 2 + ov then none
  else
    match Cipher.Open dec (s.take (2 + ov)) with
    | (none, _) => none
    | (some lenChunk, d1) =>
      let payloadSize := lenChunk.getD 0 0 * 256 + lenChunk.getD 1 0
      let rest := s.drop (2 + ov)
      if rest.length < payloadSize + ov then none
      else
        match Cipher.Open d1 (rest.take (payloadSize + ov)) with
        | (none, _) => none
        | (some pt, d2) => some (pt, rest.drop (payloadSize + ov), d2)

/-! Server handshake fixed-length header (parseResponseFLH / validate,
tcp.go). Times are unix seconds; `now` is passed explicitly where the source
calls time.Now. -/

/-- Errors of responseFLH.validate. -/
inductive RespErr where
  | headerType
  | timestampSkew
  | saltMismatch
deriving DecidableEq

/-- The parsed responseFLH record. -/
structure ResponseFLH where
  ht : Nat
  timeStamp : Nat
  requestSalt : List Nat
  l : Nat
  originSalt : List Nat

/-- responseFLH.validate: header type must be HeaderTypeServerStream (0x01);
time.Since(timestamp) — the SIGNED difference now − timestamp — must not
exceed 30 seconds; the echoed request salt must equal the client salt. -/
def validateFLH (f : ResponseFLH) (now : Int) : Option RespErr :=
  if f.ht ≠ 1 then some .headerType
  else if now - (f.timeStamp : Int) > 30 then some .timestampSkew
  else if f.requestSalt ≠ f.originSalt then some .saltMismatch
  else none

/-- parseResponseFLH: split `data` (the decrypted fixed header, of length
1 + 8 + |salt| + 2) into type byte, big-endian timestamp, echoed salt and
2-byte length, then validate. -/
def parseResponseFLH (data salt : List Nat) (now : Int) :
    Except RespErr ResponseFLH :=
  let flh : ResponseFLH :=
    { ht := data.getD 0 0
      timeStamp := beToNat ((data.drop 1).take 8)
      requestSalt := (data.drop 9).take salt.length
      l := data.getD (9 + salt.length) 0 * 256 + data.getD (10 + salt.length) 0
      originSalt := salt }
  match validateFLH flh now with
  | some e => .error e
  | none => .ok flh

/-! UDP server-packet body (parseServerMessage, tcp.go). -/

/-- Errors of parseServerMessage. -/
inductive PacketErr where
  | tooShort
  | headerType
  | timestampSkew
  | sessionMismatch
  | paddingLength
deriving DecidableEq

/-- parseServerMessage: the decrypted body must be at least 19 bytes; type
byte must be HeaderTypeServerPacket (0x01); |now − timestamp| ≤ 30 s (the
source uses time.Since(..).Abs()); bytes 9..17 must equal the session's
encrypt-context salt; the declared big-endian padding length at bytes 17..19
must fit in the packet. On success the bytes after the padding (SOCKS5
address and data) are returned. -/
def parseServerMessage (data encSalt : List Nat) (now : Int) :
    Except PacketErr (List Nat) :=
  if data.length < 19 then .error .tooShort
  else if data.getD 0 0 ≠ 1 then .error .headerType
  else if (now - (beToNat ((data.drop 1).take 8) : Int)).natAbs > 30 then
    .error .timestampSkew
  else if (data.drop 9).take 8 ≠ encSalt then .error .sessionMismatch
  else
    let paddingLen := data.getD 17 0 * 256 + data.getD 18 0
    if data.length < 19 + paddingLen then .error .paddingLength
    else .ok (data.drop (19 + paddingLen))

/-! Padding (padding.go). The draw `rand.UintN(uint(max))` is passed in as
the parameter `n` (uniform on [0, max) after clamping), and the crand.Read
output as the byte supply `rand`. -/

/-- The padding length produced by Padding for a draw `n`: `nn := uint16(n)`,
then clamped up to `min` when below it. -/
def paddingLen (mn n : Nat) : Nat :=
  if n % 65536 < mn then mn else n % 65536

/-- Padding(min, max): clamp `max` to 0xFFFD, fail when min > max, draw
`n` from [0, max), produce the 2-byte big-endian length followed by that many
random bytes. -/
def Padding (mn mx n : Nat) (rand : List Nat) : Option (List Nat) :=
  let mx := if mx > 65533 then 65533 else mx
  if mn > mx then none
  else
    let nn := paddingLen mn n
    some (be16 nn ++ rand.take nn)

/-! SOCKS5 method selection (TCPHandShake). Two source variants exist: the
one in tcp.go scans the whole 255-byte scratch buffer for the no-auth byte,
the one in the socks5 package variant scans only the nMethods bytes read. -/

/-- Outcome of the method-selection phase, paired with the bytes written to
the client. -/
inductive SelectOutcome where
  | versionErr
  | methodsCountErr
  | noAcceptable
  | proceed
deriving DecidableEq

/-- TCPHandShake method-selection phase, tcp.go variant: `buf` is the fresh
255-byte zeroed scratch buffer after reading VER, NMETHODS into buf[0..2)
and the NMETHODS method bytes into buf[0..nMethods); the no-auth check is
`slices.Contains(buf, 0x00)` over the WHOLE buffer. `methods` is the list of
method bytes read (its length is nMethods). -/
def TCPHandShakeSelect (ver nMethods : Nat) (methods : List Nat) :
    SelectOutcome × List Nat :=
  if ver ≠ 5 then (.versionErr, [])
  else if nMethods < 1 then (.methodsCountErr, [])
  else
    let buf := methods ++ ((ver :: nMethods :: List.replicate 253 0).drop nMethods)
    if buf.contains 0 then (.proceed, [5, 0]) else (.noAcceptable, [5, 255])

/-- TCPHandShake method-selection phase, socks5-package variant: the check is
`slices.Contains(buf[:nMethods], 0x00)`, i.e. over the method bytes only. -/
def TCPHandShakeSelectMethodsOnly (ver nMethods : Nat) (methods : List Nat) :
    SelectOutcome × List Nat :=
  if ver ≠ 5 then (.versionErr, [])
  else if nMethods < 1 then (.methodsCountErr, [])
  else if (methods.take nMethods).contains 0 then (.proceed, [5, 0])
  else (.noAcceptable, [5, 255])

/-! UDP unwrap (tcp.go). Go slice semantics: `data[:16]` succeeds whenever
the backing buffer's capacity is at least 16, exposing stale bytes past
len(data) (modelled by the parameter `stale`); `data[16:]` panics when
len(data) < 16. -/

/-- Outcome of unwrap as observed by relayFromServer. -/
inductive UnwrapOutcome where
  | panicked
  | failed
  | ok (payload : List Nat)
deriving DecidableEq

/-- unwrap: AES-ECB-decrypt the first 16 wire bytes (reading stale buffer
bytes `stale` when the datagram is shorter), lazily create the decrypt
context from the declared server session id, then open `data[16:]` under the
nonce separateHeader[4:16] and parse the body. For len(data) < 16 the Go
expression `data[16:]` panics with a slice-bounds error, modelled as
`.panicked`. -/
def unwrap (data stale : List Nat) (mk : MkAEAD) (enC : Cipher)
    (deC : Option Cipher) (blockDecrypt : List Nat → List Nat) (now : Int) :
    UnwrapOutcome :=
  let separateHeader := blockDecrypt ((data ++ stale).take 16)
  let deCm : Option Cipher :=
    match deC with
    | some d => some d
    | none => (Cipher.ReNew mk enC (separateHeader.take 8)).toOption
  match deCm with
  | none => .failed
  | some d =>
    if data.length < 16 then .panicked
    else
      let nonce := (separateHeader.drop 4).take 12
      match Cipher.OpenWithNonce d nonce (data.drop 16) with
      | (none, _) => .failed
      | (some msg, _) =>
        match parseServerMessage msg enC.salt now with
        | .error _ => .failed
        | .ok payload => .ok payload

/-! Theorems. -/

/-- The counter increment is little-endian add-one: on the width-`k`
little-endian encoding of `n` it yields the encoding of `n + 1`
(carry propagates upward, wrapping above `256 ^ k`). -/
theorem count_natToLE (k : Nat) : ∀ n, Counter.Count (natToLE k n) = natToLE k (n + 1) := by
  induction k with
  | zero => intro n; rfl
  | succ k ih =>
    intro n
    simp only [natToLE, Counter.Count]
    by_cases h : n % 256 = 255
    · have h1 : (n + 1) % 256 = 0 := by omega
      have h2 : (n + 1) / 256 = n / 256 + 1 := by omega
      rw [if_pos h, h1, h2, ih]
    · have hlt : n % 256 < 256 := Nat.mod_lt _ (by norm_num)
      have h1 : (n + 1) % 256 = n % 256 + 1 := by omega
      have h2 : (n + 1) / 256 = n / 256 := by omega
      rw [if_neg h, h1, h2]

/-- The all-zero counter is the little-endian encoding of 0. -/
theorem natToLE_zero (k : Nat) : natToLE k 0 = List.replicate k 0 := by
  induction k with
  | zero => rfl
  | succ k ih => simp [natToLE, ih, List.replicate]

/-- Sealing a list of payloads in order, keeping the evolving context. -/
def sealFold (c : Cipher) (ps : List (List Nat)) : Cipher :=
  ps.foldl (fun c p => (Cipher.Seal c p).2) c

/-- Each seal advances the counter once, so `N` seals iterate Count `N`
times. -/
theorem sealFold_counter (ps : List (List Nat)) :
    ∀ c : Cipher, (sealFold c ps).counter = Counter.Count^[ps.length] c.counter := by
  induction ps with
  | nil => intro c; rfl
  | cons p ps ih =>
    intro c
    show (sealFold (Cipher.Seal c p).2 ps).counter = _
    rw [ih, List.length_cons, Function.iterate_succ_apply]
    rfl

/-- C3: the nonce counter starts at the 12 zero bytes (`new(Counter)`), each
Counter.Count adds one in little-endian order with carry and wrap, and after
`N` seals on a fresh context (any key, salt and method) the counter equals
the 12-byte little-endian encoding of `N`. -/
theorem counter_le_monotone :
    (∀ k n, Counter.Count (natToLE k n) = natToLE k (n + 1)) ∧
    (∀ (A : AEAD) (key salt : List Nat) (m : CipherMethod) (ps : List (List Nat)),
      (sealFold ⟨A, List.replicate 12 0, key, salt, m⟩ ps).counter =
        natToLE 12 ps.length) := by
  refine ⟨count_natToLE, ?_⟩
  intro A key salt m ps
  rw [sealFold_counter]
  show Counter.Count^[ps.length] (List.replicate 12 0) = _
  rw [← natToLE_zero]
  induction ps.length with
  | zero => rfl
  | succ n ih => rw [Function.iterate_succ_apply', ih, count_natToLE]

/-- C1: two cipher contexts created with the same key, salt and method
(NewCipher is deterministic in these), whose counters have advanced in
lockstep (`k` prior successful seal/open operations each — see `advance`),
give `Open (Seal P) = P` for every payload `P`, by the AEAD contract. -/
theorem seal_open_roundtrip (mk : MkAEAD) (key salt : List Nat)
    (m : CipherMethod) (k : Nat) (P : List Nat) (c1 c2 : Cipher)
    (h1 : NewCipher mk key salt m = .ok c1)
    (h2 : NewCipher mk key salt m = .ok c2) :
    (Cipher.Open (advance k c2) (Cipher.Seal (advance k c1) P).1).1 = some P := by
  have hc : c1 = c2 := by
    have h := h1.symm.trans h2
    cases h
    rfl
  subst hc
  simp [Cipher.Seal, Cipher.Open, advance, c1.aead.open_seal]

/-- A fresh context over the tag AEAD, as NewCipher builds it from a 16-byte
key. -/
def cW : Cipher :=
  ⟨tagAEAD, List.replicate 12 0, List.replicate 16 0, [1], .aes128gcm⟩

/-- Witness for C1 at a concrete creation, two prior operations and payload
[3, 4]. -/
theorem seal_open_roundtrip_witness :
    NewCipher mkTag (List.replicate 16 0) [1] .aes128gcm = .ok cW ∧
    (Cipher.Open (advance 2 cW) (Cipher.Seal (advance 2 cW) [3, 4]).1).1 =
      some [3, 4] :=
  ⟨rfl, seal_open_roundtrip mkTag (List.replicate 16 0) [1] .aes128gcm 2
    [3, 4] cW cW rfl rfl⟩

/-- C8: Cipher.Open leaves the counter unchanged when the AEAD rejects the
ciphertext, and advances it by exactly one increment on success. -/
theorem open_counter_advance :
    ∀ (c : Cipher) (ct : List Nat),
      ((Cipher.Open c ct).1 = none → (Cipher.Open c ct).2.counter = c.counter) ∧
      ((Cipher.Open c ct).1.isSome = true →
        (Cipher.Open c ct).2.counter = Counter.Count c.counter) := by
  intro c ct
  unfold Cipher.Open
  cases h : c.aead.Open c.counter ct <;> simp

/-- Witness for C8: on the tag AEAD, ciphertext [1] fails and the counter
stays, ciphertext [7] succeeds and the counter advances. -/
theorem open_counter_advance_witness :
    ((Cipher.Open cW [1]).1 = none ∧ (Cipher.Open cW [1]).2.counter = cW.counter) ∧
    ((Cipher.Open cW [7]).1.isSome = true ∧
      (Cipher.Open cW [7]).2.counter = Counter.Count cW.counter) :=
  ⟨⟨by decide, (open_counter_advance cW [1]).1 (by decide)⟩,
   ⟨by decide, (open_counter_advance cW [7]).2 (by decide)⟩⟩

/-- C9: cipher construction returns the invalid-key-size error exactly when
the key length violates the method's precondition (16 bytes for aes128gcm,
32 for aes256gcm and chacha20poly1305), and succeeds otherwise. -/
theorem cipher_key_size (mk : MkAEAD) (key salt : List Nat) (m : CipherMethod) :
    (NewCipher mk key salt m = .error .keySize ↔ key.length ≠ requiredKeyLen m) ∧
    (isOk (NewCipher mk key salt m) = true ↔ key.length = requiredKeyLen m) := by
  cases m <;>
    simp only [NewCipher, NewAES128GCM, NewAES256GCM, NewChacha20Poly1305,
      requiredKeyLen, isOk] <;>
    by_cases h : key.length = 16 <;> by_cases h32 : key.length = 32 <;>
    simp_all [isOk]

/-- Opening a stream that starts with a sealed 2-byte length chunk and a
sealed body whose length the chunk declares recovers the body and leaves the
rest of the stream, advancing the decrypt counter twice. -/
theorem readChunk_spec (dec : Cipher) (lb p rest : List Nat)
    (hlb : lb.length = 2)
    (hsize : lb.getD 0 0 * 256 + lb.getD 1 0 = p.length) :
    readChunk dec.aead.overhead dec
      ((dec.aead.Seal dec.counter lb ++
        dec.aead.Seal (Counter.Count dec.counter) p) ++ rest) =
      some (p, rest,
        { dec with counter := Counter.Count (Counter.Count dec.counter) }) := by
  have h1 : (dec.aead.Seal dec.counter lb).length = 2 + dec.aead.overhead := by
    rw [dec.aead.seal_length, hlb]
  have h2 : (dec.aead.Seal (Counter.Count dec.counter) p).length =
      p.length + dec.aead.overhead := dec.aead.seal_length _ _
  rw [List.append_assoc]
  have hlen : (dec.aead.Seal dec.counter lb ++
      (dec.aead.Seal (Counter.Count dec.counter) p ++ rest)).length =
      (2 + dec.aead.overhead) + ((p.length + dec.aead.overhead) + rest.length) := by
    simp only [List.length_append, h1, h2]
  simp only [readChunk]
  rw [if_neg (by omega), List.take_left' h1, List.drop_left' h1]
  simp only [Cipher.Open, dec.aead.open_seal]
  have hlen2 : (dec.aead.Seal (Counter.Count dec.counter) p ++ rest).length =
      (p.length + dec.aead.overhead) + rest.length := by
    simp only [List.length_append, h2]
  rw [hsize, if_neg (by omega), List.take_left' h2, List.drop_left' h2]
  simp only [dec.aead.open_seal]

/-- C4: for payloads of length at most 0xFFFF, ShadowTCPConn.Write emits
Seal(2-byte big-endian length) followed by Seal(payload), advancing the
encrypt counter twice, and ShadowTCPConn.Read applied to that wire data (a
decrypt context with the same AEAD and a lockstep counter) recovers the
payload, consumes exactly the chunk, and advances the decrypt counter
twice. -/
theorem framed_chunk_roundtrip (enc dec : Cipher) (p rest : List Nat)
    (hp : p.length ≤ 0xFFFF) (ha : dec.aead = enc.aead)
    (hc : dec.counter = enc.counter) :
    writeChunk enc p =
      (enc.aead.Seal enc.counter [p.length / 256 % 256, p.length % 256] ++
        enc.aead.Seal (Counter.Count enc.counter) p,
        { enc with counter := Counter.Count (Counter.Count enc.counter) }) ∧
    readChunk enc.aead.overhead dec ((writeChunk enc p).1 ++ rest) =
      some (p, rest,
        { dec with counter := Counter.Count (Counter.Count dec.counter) }) := by
  have hsize : ([p.length / 256 % 256, p.length % 256].getD 0 0) * 256 +
      [p.length / 256 % 256, p.length % 256].getD 1 0 = p.length := by
    show p.length / 256 % 256 * 256 + p.length % 256 = p.length
    omega
  refine ⟨rfl, ?_⟩
  have hw : (writeChunk enc p).1 =
      enc.aead.Seal enc.counter [p.length / 256 % 256, p.length % 256] ++
        enc.aead.Seal (Counter.Count enc.counter) p := rfl
  rw [hw, ← ha, ← hc]
  exact readChunk_spec dec _ p rest rfl hsize

/-- Witness for C4 on the tag AEAD: payload [9], trailing stream [4]. -/
theorem framed_chunk_roundtrip_witness :
    ([9] : List Nat).length ≤ 0xFFFF ∧ cW.aead = cW.aead ∧
      cW.counter = cW.counter ∧
      readChunk cW.aead.overhead cW ((writeChunk cW [9]).1 ++ [4]) =
        some ([9], [4],
          { cW with counter := Counter.Count (Counter.Count cW.counter) }) :=
  ⟨by decide, rfl, rfl,
    (framed_chunk_roundtrip cW cW [9] [4] (by decide) rfl rfl).2⟩

/-- C2 counterexample: a response header whose timestamp is 100 seconds in
the future (|now − timestamp| = 100 > 30) is ACCEPTED by parseResponseFLH,
because validate tests the signed difference time.Since(ts) > 30 only. -/
theorem response_flh_future_skew_accepted :
    isOk (parseResponseFLH [1, 0, 0, 0, 0, 0, 0, 0, 100, 5, 0, 0] [5] 0) = true ∧
    ((0 : Int) -
      (beToNat (([1, 0, 0, 0, 0, 0, 0, 0, 100, 5, 0, 0].drop 1).take 8) : Nat)).natAbs
      > 30 := by
  decide

/-- C2 amended: parsing the fixed response header (of length
1 + 8 + |salt| + 2) succeeds iff the header type is 0x01, the SIGNED skew
now − timestamp is at most 30 seconds (future timestamps always pass), and
the echoed request salt equals the client's salt. -/
theorem response_flh_validate (data salt : List Nat) (now : Int)
    (h : data.length = 11 + salt.length) :
    isOk (parseResponseFLH data salt now) = true ↔
      (data.getD 0 0 = 1 ∧
        now - (beToNat ((data.drop 1).take 8) : Nat) ≤ 30 ∧
        (data.drop 9).take salt.length = salt) := by
  by_cases hA : data.getD 0 0 = 1 <;>
    by_cases hB : now - (beToNat ((data.drop 1).take 8) : Nat) > 30 <;>
    by_cases hC : (data.drop 9).take salt.length = salt <;>
    simp_all [parseResponseFLH, validateFLH, isOk] <;> (try omega) <;>
    rw [if_neg (by omega)]

/-- Witness for C2 amended: a valid header with timestamp 100, now 120. -/
theorem response_flh_validate_witness :
    ([1, 0, 0, 0, 0, 0, 0, 0, 100, 5, 0, 0] : List Nat).length =
      11 + ([5] : List Nat).length ∧
    (isOk (parseResponseFLH [1, 0, 0, 0, 0, 0, 0, 0, 100, 5, 0, 0] [5] 120) = true ↔
      (([1, 0, 0, 0, 0, 0, 0, 0, 100, 5, 0, 0] : List Nat).getD 0 0 = 1 ∧
        (120 : Int) -
          (beToNat ((([1, 0, 0, 0, 0, 0, 0, 0, 100, 5, 0, 0] : List Nat).drop 1).take 8) : Nat)
          ≤ 30 ∧
        (([1, 0, 0, 0, 0, 0, 0, 0, 100, 5, 0, 0] : List Nat).drop 9).take
          ([5] : List Nat).length = [5])) :=
  ⟨by decide, response_flh_validate _ _ 120 (by decide)⟩

/-- C7: parsing a decrypted UDP server-packet body succeeds iff the type
byte is 0x01, |now − timestamp| ≤ 30 s, the 8-byte client session id equals
the session's encrypt-context salt, and the declared padding length fits in
the packet; on success the returned payload is the bytes after the padding. -/
theorem server_message_validate (data encSalt : List Nat) (now : Int) :
    (isOk (parseServerMessage data encSalt now) = true ↔
      (data.getD 0 0 = 1 ∧
        (now - (beToNat ((data.drop 1).take 8) : Nat)).natAbs ≤ 30 ∧
        (data.drop 9).take 8 = encSalt ∧
        19 + (data.getD 17 0 * 256 + data.getD 18 0) ≤ data.length)) ∧
    (∀ payload, parseServerMessage data encSalt now = .ok payload →
      payload = data.drop (19 + (data.getD 17 0 * 256 + data.getD 18 0))) := by
  by_cases h0 : data.length < 19 <;>
    by_cases h1 : data.getD 0 0 = 1 <;>
    by_cases h2 : (now - (beToNat ((data.drop 1).take 8) : Nat)).natAbs > 30 <;>
    by_cases h3 : (data.drop 9).take 8 = encSalt <;>
    by_cases h4 : data.length < 19 + (data.getD 17 0 * 256 + data.getD 18 0) <;>
    simp_all [parseServerMessage, isOk] <;> (try omega) <;>
    rw [if_neg (by omega)] <;>
    (try rw [if_neg (by omega)]) <;> (try simp_all) <;>
    (try rw [if_neg (by omega)]) <;> simp_all

/-- Witness for C7: a concrete 22-byte body with timestamp 10, now 12,
padding length 1; the payload is the final two bytes. -/
theorem server_message_validate_witness :
    parseServerMessage
        [1, 0, 0, 0, 0, 0, 0, 0, 10, 1, 2, 3, 4, 5, 6, 7, 8, 0, 1, 42, 9, 9]
        [1, 2, 3, 4, 5, 6, 7, 8] 12 = .ok [9, 9] ∧
    ([9, 9] : List Nat) =
      [1, 0, 0, 0, 0, 0, 0, 0, 10, 1, 2, 3, 4, 5, 6, 7, 8, 0, 1, 42, 9, 9].drop
        (19 + (([1, 0, 0, 0, 0, 0, 0, 0, 10, 1, 2, 3, 4, 5, 6, 7, 8, 0, 1, 42, 9, 9] : List Nat).getD 17 0 * 256 +
          ([1, 0, 0, 0, 0, 0, 0, 0, 10, 1, 2, 3, 4, 5, 6, 7, 8, 0, 1, 42, 9, 9] : List Nat).getD 18 0)) :=
  ⟨by rfl,
    (server_message_validate
      [1, 0, 0, 0, 0, 0, 0, 0, 10, 1, 2, 3, 4, 5, 6, 7, 8, 0, 1, 42, 9, 9]
      [1, 2, 3, 4, 5, 6, 7, 8] 12).2 [9, 9] (by rfl)⟩

set_option maxRecDepth 4000 in
/-- C6 counterexample: over Padding(1, 900)'s entire draw range [0, 900) the
padding length never takes the value 900, so the length is not uniform on
[1, 900] and 900 is unattainable. -/
theorem padding_900_unattainable :
    ((List.range 900).map (paddingLen 1)).contains 900 = false := by
  decide

/-- C6 amended: a padding generated by Padding(1, 900) for draw `n < 900` is
the 2-byte big-endian length followed by exactly that many random bytes,
where the length is `max 1 n`; it lies in [1, 899] (900 is unattainable),
every value of [1, 899] is attainable, and the draw 0 is folded into length
1, so the distribution is uniform only on the draws, not the lengths. -/
theorem padding_form_and_bounds (n : Nat) (rand : List Nat) (hn : n < 900)
    (hr : 899 ≤ rand.length) :
    Padding 1 900 n rand =
      some (be16 (paddingLen 1 n) ++ rand.take (paddingLen 1 n)) ∧
    1 ≤ paddingLen 1 n ∧ paddingLen 1 n ≤ 899 ∧
    (rand.take (paddingLen 1 n)).length = paddingLen 1 n ∧
    (∀ v, 1 ≤ v → v ≤ 899 → paddingLen 1 v = v) := by
  have h65 : n % 65536 = n := Nat.mod_eq_of_lt (by omega)
  have hlo : 1 ≤ paddingLen 1 n := by
    simp only [paddingLen, h65]
    split <;> omega
  have hhi : paddingLen 1 n ≤ 899 := by
    simp only [paddingLen, h65]
    split <;> omega
  refine ⟨rfl, hlo, hhi, ?_, ?_⟩
  · rw [List.length_take]
    omega
  · intro v h1v h2v
    have hv : v % 65536 = v := Nat.mod_eq_of_lt (by omega)
    simp only [paddingLen, hv]
    split <;> omega

/-- Witness for C6 amended at draw 3 and a 899-byte random supply. -/
theorem padding_form_and_bounds_witness :
    (3 : Nat) < 900 ∧ 899 ≤ (List.replicate 899 5).length ∧
    (Padding 1 900 3 (List.replicate 899 5) =
      some (be16 (paddingLen 1 3) ++ (List.replicate 899 5).take (paddingLen 1 3)) ∧
    1 ≤ paddingLen 1 3 ∧ paddingLen 1 3 ≤ 899 ∧
    ((List.replicate 899 5).take (paddingLen 1 3)).length = paddingLen 1 3 ∧
    (∀ v, 1 ≤ v → v ≤ 899 → paddingLen 1 v = v)) :=
  ⟨by decide, by rw [List.length_replicate],
    padding_form_and_bounds 3 (List.replicate 899 5) (by decide)
      (by rw [List.length_replicate])⟩

/-- C5: the tcp.go variant of TCPHandShake scans the whole zero-initialised
255-byte scratch buffer for the no-auth byte, so for VER=5, NMETHODS=1 and
the single offered method 0x02 it replies {05, 00} and proceeds even though
0x00 is absent from the method bytes; the socks5-package variant, which scans
only the method bytes as the claim states, refuses with {05, FF}. -/
theorem socks5_method_scan_bug :
    TCPHandShakeSelect 5 1 [2] = (.proceed, [5, 0]) ∧
    ([2] : List Nat).contains 0 = false ∧
    TCPHandShakeSelectMethodsOnly 5 1 [2] = (.noAcceptable, [5, 255]) := by
  decide

/-- C10: a received UDP datagram shorter than 16 bytes (here the single byte
0x00) makes unwrap evaluate the Go expression data[16:], which panics with a
slice-bounds error instead of returning an error, for every stale buffer
content, cipher state and block cipher; moreover data[:16] has already read
past the datagram's length into the stale buffer bytes. -/
theorem unwrap_short_datagram_panics :
    ∀ (stale : List Nat) (mk : MkAEAD) (enC d : Cipher)
      (blockDecrypt : List Nat → List Nat) (now : Int),
      unwrap [0] stale mk enC (some d) blockDecrypt now = .panicked := by
  intro stale mk enC d blockDecrypt now
  rfl

end Kage